import Mathlib

/-!
Verification development for the kubernetes-pod-watch repository.

The embedding models the JavaScript/TypeScript sources shallowly:
JS finite numbers become `ℚ` (floating-point rounding idealised to exact
rational arithmetic), `NaN` is modelled by an `Option ℚ` being `none`,
JS values that can additionally be `null` use the `JsVal` type, strings
are `String` / `List Char`, and JS `Map`s / plain objects are association
lists whose `set` overwrites in place (preserving insertion order, as a
JS `Map` does).

Rational arithmetic inside the executable definitions is expressed with
the kernel-computable `Rat.divInt` forms `qAdd`/`qSub`/`qMul`/`qDiv`
(Lean's `Rat.add` etc. are `@[irreducible]`); the bridge lemmas
`qAdd_eq`/`qSub_eq`/`qMul_eq`/`qDiv_eq`/`jsRound_eq` identify them with
ordinary `ℚ` arithmetic, and the theorems are stated with the ordinary
operations.
-/

namespace PodWatch

/-- Kernel-computable product of two rationals, equal to `a * b` by `qMul_eq`. -/
def qMul (a b : ℚ) : ℚ := Rat.divInt (a.num * b.num) ((a.den : ℤ) * (b.den : ℤ))

/-- Kernel-computable quotient of two rationals, equal to `a / b` by `qDiv_eq`
(with the junk value `a / 0 = 0` of `ℚ`). -/
def qDiv (a b : ℚ) : ℚ := Rat.divInt (a.num * (b.den : ℤ)) ((a.den : ℤ) * b.num)

/-- Kernel-computable sum of two rationals, equal to `a + b` by `qAdd_eq`. -/
def qAdd (a b : ℚ) : ℚ :=
  Rat.divInt (a.num * (b.den : ℤ) + b.num * (a.den : ℤ)) ((a.den : ℤ) * (b.den : ℤ))

/-- Kernel-computable difference of two rationals, equal to `a - b` by `qSub_eq`. -/
def qSub (a b : ℚ) : ℚ :=
  Rat.divInt (a.num * (b.den : ℤ) - b.num * (a.den : ℤ)) ((a.den : ℤ) * (b.den : ℤ))

/-- JS `Math.round`: round half toward positive infinity, i.e. `⌊x + 1/2⌋`,
in kernel-computable form (see `jsRound_eq`). -/
def jsRound (q : ℚ) : ℤ := Int.fdiv (2 * q.num + (q.den : ℤ)) (2 * (q.den : ℤ))

/-- A JS number that may be `NaN`: `none` models `NaN`, `some q` a finite value. -/
abbrev JsNum := Option ℚ

/-- Result of a JS computation that may be `null`, `NaN`, or an integer
(all call sites modelled here end in `Math.round`, so finite results are integers). -/
inductive JsVal where
  | null : JsVal
  | nan : JsVal
  | int : ℤ → JsVal
deriving DecidableEq

/-- Lift `Math.round` over a possibly-`NaN` number: `Math.round(NaN)` is `NaN`. -/
def roundJs : JsNum → JsVal
  | none => JsVal.nan
  | some q => JsVal.int (jsRound q)

/-- JS whitespace (the characters relevant to this code base). -/
def isJsSpace (c : Char) : Bool :=
  c == ' ' || c == '\t' || c == '\n' || c == '\r' || c == '\x0b' || c == '\x0c'

/-- JS `String.prototype.trim`. -/
def jsTrim (l : List Char) : List Char :=
  ((l.dropWhile isJsSpace).reverse.dropWhile isJsSpace).reverse

/-- Numeric value of a list of decimal digit characters (most significant first). -/
def digitsToNat (l : List Char) : ℕ :=
  l.foldl (fun a c => 10 * a + (c.toNat - 48)) 0

/-- Exponent part of a JS float literal: optional sign then digits; an `e`
not followed by digits contributes exponent `0` (the prefix before it still parses). -/
def expPart (l : List Char) : ℤ :=
  let sr : ℤ × List Char :=
    match l with
    | '-' :: r => (-1, r)
    | '+' :: r => (1, r)
    | r => (1, r)
  let ds := sr.2.takeWhile Char.isDigit
  if ds = [] then 0 else sr.1 * (digitsToNat ds : ℤ)

/-- JS `parseFloat`: skip leading whitespace, then parse the longest prefix of
the form `[+-]? (digits [. digits?] | . digits) ([eE] [+-]? digits)?`; trailing
characters are ignored; `none` models the `NaN` outcome. The parsed value
`sign × (intDigits.fracDigits) × 10^exp` is assembled as one exact fraction.
(`Infinity` literals are not modelled; no input in this code base produces them.) -/
def parseFloatQ (l : List Char) : JsNum :=
  let l1 := l.dropWhile isJsSpace
  let sgn : ℤ × List Char :=
    match l1 with
    | '-' :: r => (-1, r)
    | '+' :: r => (1, r)
    | r => (1, r)
  let ip := sgn.2.takeWhile Char.isDigit
  let l3 := sgn.2.dropWhile Char.isDigit
  let fr : List Char × List Char :=
    match l3 with
    | '.' :: r => (r.takeWhile Char.isDigit, r.dropWhile Char.isDigit)
    | r => ([], r)
  if ip = [] ∧ fr.1 = [] then none
  else
    let mant : ℕ := digitsToNat ip * 10 ^ fr.1.length + digitsToNat fr.1
    let ex : ℤ :=
      (match fr.2 with
       | 'e' :: r => expPart r
       | 'E' :: r => expPart r
       | _ => 0) - (fr.1.length : ℤ)
    some
      (if 0 ≤ ex then Rat.divInt (sgn.1 * (mant : ℤ) * 10 ^ ex.toNat) 1
       else Rat.divInt (sgn.1 * (mant : ℤ)) (10 ^ (-ex).toNat))

/-- JS `parseInt(s, 10)` on an all-digit string (the only use in this code base:
the exposition timestamp field, which the line pattern restricts to digits). -/
def parseIntDigits (l : List Char) : ℤ := (digitsToNat l : ℤ)

end PodWatch

namespace PodWatch.ResourceCollector

/-- Embeds `parseCpuToMillicores` of `scripts/k8s-resource-collector.mjs`:
empty/missing input yields `0`; suffix `n` divides by 1e6, `u` by 1e3, `m` is
taken as-is, no suffix multiplies by 1000; each branch applies `Math.round`.
An unparsable numeric part propagates `NaN`. -/
def parseCpuToMillicores (quantity : String) : JsVal :=
  if quantity = "" then JsVal.int 0
  else
    let value := jsTrim quantity.toList
    if value.getLast? = some 'n' then
      roundJs ((parseFloatQ value.dropLast).map (fun x => qDiv x 1000000))
    else if value.getLast? = some 'u' then
      roundJs ((parseFloatQ value.dropLast).map (fun x => qDiv x 1000))
    else if value.getLast? = some 'm' then
      roundJs (parseFloatQ value.dropLast)
    else
      roundJs ((parseFloatQ value).map (fun x => qMul x 1000))

/-- Splits a memory quantity into its `[0-9.]+` numeric part and optional
all-alphabetic unit, mirroring the pattern used by both collectors: the
numeric part is the maximal digits-and-dots prefix and must be nonempty, the
remainder must be entirely alphabetic (possibly empty). -/
def memMatch (l : List Char) : Option (List Char × List Char) :=
  let np := l.takeWhile (fun c => c.isDigit || c == '.')
  let rest := l.dropWhile (fun c => c.isDigit || c == '.')
  if np = [] then none
  else if rest.all (fun c => c.isAlpha) then some (np, rest)
  else none

/-- Binary unit factors of the collectors (`Ki`..`Ei`, upper-cased keys). -/
def binFactor (unit : String) : Option ℤ :=
  if unit = "KI" then some 1024
  else if unit = "MI" then some (1024 ^ 2)
  else if unit = "GI" then some (1024 ^ 3)
  else if unit = "TI" then some (1024 ^ 4)
  else if unit = "PI" then some (1024 ^ 5)
  else if unit = "EI" then some (1024 ^ 6)
  else none

/-- Decimal unit factors of the collectors (`K`..`E`, upper-cased keys). -/
def decFactor (unit : String) : Option ℤ :=
  if unit = "K" then some 1000
  else if unit = "M" then some (1000 ^ 2)
  else if unit = "G" then some (1000 ^ 3)
  else if unit = "T" then some (1000 ^ 4)
  else if unit = "P" then some (1000 ^ 5)
  else if unit = "E" then some (1000 ^ 6)
  else none

/-- Embeds `parseMemoryToBytes` of `scripts/k8s-resource-collector.mjs`:
empty/missing input and pattern failure yield `0`; otherwise the numeric part
is scaled by the binary or decimal unit factor (no recognised unit: taken
as bytes) and rounded. An unparsable numeric part propagates `NaN`. -/
def parseMemoryToBytes (quantity : String) : JsVal :=
  if quantity = "" then JsVal.int 0
  else
    let value := jsTrim quantity.toList
    match memMatch value with
    | none => JsVal.int 0
    | some (np, up) =>
      let num := parseFloatQ np
      let unit := String.mk (up.map Char.toUpper)
      match binFactor unit with
      | some f => roundJs (num.map (fun x => qMul x ((f : ℤ) : ℚ)))
      | none =>
        match decFactor unit with
        | some f => roundJs (num.map (fun x => qMul x ((f : ℤ) : ℚ)))
        | none => roundJs num

end PodWatch.ResourceCollector

namespace PodWatch.K8sCollector

/-- Embeds `parseCpuToMillicores` of `scripts/k8s-collector.mjs` (the
inventory-sync collector): empty/missing or whitespace-only input yields
`null`; the suffix branches are identical to the resource sampler's; the
no-suffix branch returns `null` when the value does not parse as a number. -/
def parseCpuToMillicores (quantity : String) : JsVal :=
  if quantity = "" then JsVal.null
  else
    let value := jsTrim quantity.toList
    if value = [] then JsVal.null
    else if value.getLast? = some 'n' then
      roundJs ((parseFloatQ value.dropLast).map (fun x => qDiv x 1000000))
    else if value.getLast? = some 'u' then
      roundJs ((parseFloatQ value.dropLast).map (fun x => qDiv x 1000))
    else if value.getLast? = some 'm' then
      roundJs (parseFloatQ value.dropLast)
    else
      match parseFloatQ value with
      | none => JsVal.null
      | some x => JsVal.int (jsRound (qMul x 1000))

/-- Embeds `parseMemoryToBytes` of `scripts/k8s-collector.mjs`: empty,
whitespace-only, pattern-failing or numerically unparsable input yields
`null`; otherwise the computation agrees with the resource sampler's. -/
def parseMemoryToBytes (quantity : String) : JsVal :=
  if quantity = "" then JsVal.null
  else
    let value := jsTrim quantity.toList
    if value = [] then JsVal.null
    else
      match ResourceCollector.memMatch value with
      | none => JsVal.null
      | some (np, up) =>
        match parseFloatQ np with
        | none => JsVal.null
        | some x =>
          let unit := String.mk (up.map Char.toUpper)
          match ResourceCollector.binFactor unit with
          | some f => JsVal.int (jsRound (qMul x ((f : ℤ) : ℚ)))
          | none =>
            match ResourceCollector.decFactor unit with
            | some f => JsVal.int (jsRound (qMul x ((f : ℤ) : ℚ)))
            | none => JsVal.int (jsRound x)

end PodWatch.K8sCollector

namespace PodWatch

/-- Name-start characters of an exposition metric name (`[a-zA-Z_:]`). -/
def isMetricStart (c : Char) : Bool := c.isAlpha || c == '_' || c == ':'

/-- Continuation characters of an exposition metric name (`[a-zA-Z0-9_:]`). -/
def isMetricChar (c : Char) : Bool := c.isAlphanum || c == '_' || c == ':'

/-- Name-start characters of an exposition label name (`[a-zA-Z_]`). -/
def isLabelStart (c : Char) : Bool := c.isAlpha || c == '_'

/-- Continuation characters of an exposition label name (`[a-zA-Z0-9_]`). -/
def isLabelChar (c : Char) : Bool := c.isAlphanum || c == '_'

/-- Characters of the exposition value field (the class `[0-9eE+.-]`). -/
def isValueChar (c : Char) : Bool :=
  c.isDigit || c == 'e' || c == 'E' || c == '+' || c == '.' || c == '-'

/-- Matches the label-body pattern `((?:\\.|[^"])*)"` of `parsePrometheusLabels`:
returns the consumed body and the remainder after the closing quote. The
alternation prefers the escape pair, backtracking like the regex does (the
fuel argument only bounds the recursion; `fuel = length + 1` always suffices
since every branch consumes at least one character). -/
def bodyClose : ℕ → List Char → Option (List Char × List Char)
  | 0, _ => none
  | _ + 1, [] => none
  | _ + 1, '"' :: rest => some ([], rest)
  | fuel + 1, '\\' :: c :: rest =>
    (match bodyClose fuel rest with
     | some (b, r) => some ('\\' :: c :: b, r)
     | none =>
       match bodyClose fuel (c :: rest) with
       | some (b, r) => some ('\\' :: b, r)
       | none => none)
  | fuel + 1, c :: rest =>
    match bodyClose fuel rest with
    | some (b, r) => some (c :: b, r)
    | none => none

/-- The unescaping applied to a matched label body:
`.replace(/\\\\/g, '\\')` — each double backslash becomes one. -/
def unescapeBackslash : List Char → List Char
  | '\\' :: '\\' :: rest => '\\' :: unescapeBackslash rest
  | c :: rest => c :: unescapeBackslash rest
  | [] => []

/-- The second unescaping pass: `.replace(/\\"/g, '"')`. -/
def unescapeQuote : List Char → List Char
  | '\\' :: '"' :: rest => '"' :: unescapeQuote rest
  | c :: rest => c :: unescapeQuote rest
  | [] => []

/-- One attempt of the global label pattern
`([a-zA-Z_][a-zA-Z0-9_]*)="((?:\\.|[^"])*)"` at the head of the input:
returns the label name, unescaped value, and remainder after the match. -/
def tryLabel (l : List Char) : Option (String × String × List Char) :=
  match l with
  | c :: rest =>
    if isLabelStart c then
      let name := c :: rest.takeWhile isLabelChar
      match rest.dropWhile isLabelChar with
      | '=' :: '"' :: body =>
        match bodyClose (body.length + 1) body with
        | some (b, r) =>
          some (String.mk name, String.mk (unescapeQuote (unescapeBackslash b)), r)
        | none => none
      | _ => none
    else none
  | [] => none

/-- Embeds `parsePrometheusLabels` of `scripts/k8s-resource-collector.mjs`:
repeatedly scan for the leftmost label match, recording pairs in order;
on a failed attempt advance one character, like a global regex `exec` loop.
The result keeps the matches in order; a duplicate name later overwrites
(object-assignment semantics), applied by `labelsOf`. Fuel bounds the scan;
`fuel = length + 1` always suffices since each step consumes ≥ 1 character. -/
def scanLabels : ℕ → List Char → List (String × String)
  | 0, _ => []
  | _ + 1, [] => []
  | fuel + 1, c :: rest =>
    match tryLabel (c :: rest) with
    | some (n, v, r) => (n, v) :: scanLabels fuel r
    | none => scanLabels fuel rest

/-- Association-list lookup (JS `Map.get` / object property read). -/
def lookupA {α : Type} (m : List (String × α)) (k : String) : Option α :=
  match m with
  | [] => none
  | (k1, v) :: r => if k1 = k then some v else lookupA r k

/-- Association-list overwrite (JS `Map.set` / object property assignment):
replaces in place, preserving the original insertion position, else appends. -/
def setA {α : Type} (m : List (String × α)) (k : String) (v : α) : List (String × α) :=
  match m with
  | [] => [(k, v)]
  | (k1, v1) :: r => if k1 = k then (k, v) :: r else (k1, v1) :: setA r k v

/-- Folds the scanned label pairs into an object, later assignments
overwriting earlier ones (`labels[name] = value`). -/
def labelsOf (raw : List Char) : List (String × String) :=
  (scanLabels (raw.length + 1) raw).foldl (fun m nv => setA m nv.1 nv.2) []

/-- A parsed exposition line: metric name, label object, `parseFloat`ed value
(`none` models `NaN`), raw value text, and timestamp (the explicit integer
field when present, otherwise the acquisition time `now`). -/
structure PromSample where
  metric : String
  labels : List (String × String)
  value : JsNum
  valueRaw : List Char
  timestamp : ℤ
deriving DecidableEq

/-- Embeds `parsePrometheusLine` of `scripts/k8s-resource-collector.mjs`: the
anchored pattern `^([a-zA-Z_:][a-zA-Z0-9_:]*)\x7b([^\x7d]*)\x7d\s+([0-9eE+.-]+)(?:\s+([0-9]+))?$`
rendered as a deterministic scan (each regex piece is followed by a character
its class excludes, so greedy matching never backtracks); `none` models the
`return null` on a line the pattern rejects. -/
def parsePrometheusLine (now : ℤ) (line : List Char) : Option PromSample :=
  match line with
  | [] => none
  | c :: rest =>
    if isMetricStart c then
      let name := c :: rest.takeWhile isMetricChar
      match rest.dropWhile isMetricChar with
      | '{' :: afterBrace =>
        let labelsRaw := afterBrace.takeWhile (fun d => !(d == '}'))
        match afterBrace.dropWhile (fun d => !(d == '}')) with
        | '}' :: afterLabels =>
          let sp := afterLabels.takeWhile isJsSpace
          let afterSp := afterLabels.dropWhile isJsSpace
          if sp = [] then none
          else
            let valueRaw := afterSp.takeWhile isValueChar
            let afterValue := afterSp.dropWhile isValueChar
            if valueRaw = [] then none
            else
              match afterValue with
              | [] =>
                some ⟨String.mk name, labelsOf labelsRaw, parseFloatQ valueRaw, valueRaw, now⟩
              | _ =>
                let sp2 := afterValue.takeWhile isJsSpace
                let ts := afterValue.dropWhile isJsSpace
                if sp2 = [] then none
                else if ts ≠ [] ∧ ts.all Char.isDigit then
                  some ⟨String.mk name, labelsOf labelsRaw, parseFloatQ valueRaw, valueRaw,
                    parseIntDigits ts⟩
                else none
        | _ => none
      | _ => none
    else none

/-- JS truthiness test for a possibly-absent string: `undefined` and `""` are falsy. -/
def strFalsy : Option String → Bool
  | none => true
  | some s => s = ""

/-- JS `String.prototype.split(sep)`: empty parts are preserved; an input with
no separator yields one part. -/
def splitOnChar (sep : Char) : List Char → List (List Char)
  | [] => [[]]
  | c :: rest =>
    let r := splitOnChar sep rest
    if c = sep then [] :: r
    else
      match r with
      | h :: t => (c :: h) :: t
      | [] => [[c]]

/-- Characters of the class `[a-f0-9]` with the `i` flag, i.e. hex digits. -/
def isHexChar (c : Char) : Bool :=
  c.isDigit || decide ('a' ≤ c ∧ c ≤ 'f') || decide ('A' ≤ c ∧ c ≤ 'F')

/-- The runtime-container-id extraction of `fetchViaCadvisor`: the pattern
`\/([a-f0-9]\x7b24,\x7d)$/i` matches exactly when the text after the last `/`
is 24 or more hex characters reaching the end of the string (the hex class
excludes `/`, so only the last path segment can match). -/
def runtimeIdOf (idPath : List Char) : Option (List Char) :=
  let parts := splitOnChar '/' idPath
  if 2 ≤ parts.length then
    match parts.getLast? with
    | some tl => if 24 ≤ tl.length ∧ tl.all isHexChar then some tl else none
    | none => none
  else none

end PodWatch

namespace PodWatch.ResourceCollector

/-- A value of the pod index `byNamespaceName` map: `\x7buid, nodeName\x7d`
picked from pod metadata (either field may be absent). -/
structure PodMeta where
  uid : Option String
  nodeName : Option String
deriving DecidableEq

/-- A value of the pod index `byRuntimeContainerId` map (source fields
`namespace`, `podName`, `podUid`, `containerName`; `namespace` is a reserved
word in Lean and is rendered `ns`). -/
structure ResolvedId where
  ns : String
  podName : String
  podUid : Option String
  containerName : String
deriving DecidableEq

/-- The pod index built once per cycle by `fetchPodsIndex` (taken as input
here: its construction only repackages the pod-list API response). -/
structure PodsIndex where
  byNamespaceName : List (String × PodMeta)
  byRuntimeContainerId : List (String × ResolvedId)
deriving DecidableEq

/-- An entry of the cross-cycle `cpuTotalByContainer` map (`CounterState`):
last-seen cumulative CPU seconds (possibly `NaN`) and its timestamp. -/
structure CounterEntry where
  totalSeconds : JsNum
  tsMs : ℤ
deriving DecidableEq

/-- The process-lifetime `cpuTotalByContainer` map, passed explicitly. -/
abbrev CounterMap := List (String × CounterEntry)

/-- The per-cycle accumulation maps of `fetchViaCadvisor`. -/
structure CadvisorMaps where
  cpuTotals : List (String × CounterEntry)
  memoryByContainer : List (String × JsNum)
deriving DecidableEq

/-- A usage row `\x7bpodUid, podName, containerName, cpuMillicores, memoryBytes\x7d`
as produced by each acquisition tier. The source rows also carry `cpuRaw` /
`memoryRaw` display strings rendered from the same data; number-to-string
rendering is not modelled. -/
structure UsageRow where
  podUid : String
  podName : String
  containerName : String
  cpuMillicores : JsVal
  memoryBytes : JsVal
deriving DecidableEq

/-- Embeds the line-processing loop body of `fetchViaCadvisor` (lines 314-343):
skip empty and comment lines, parse the trimmed line, resolve identity from
labels or via the runtime-container-id mapping when the `container` label is
falsy, drop samples outside the target namespace or with unresolved identity,
and record the CPU counter (timestamp falling back to `now` when `0`) or the
memory gauge under the `namespace/pod/container` key. -/
def processCadvisorLine (target : String) (idx : PodsIndex) (now : ℤ)
    (st : CadvisorMaps) (line : List Char) : CadvisorMaps :=
  if line = [] ∨ line.head? = some '#' then st
  else
    match parsePrometheusLine now (jsTrim line) with
    | none => st
    | some parsed =>
      let ns0 := lookupA parsed.labels ("namespace")
      let pod0 := lookupA parsed.labels ("pod")
      let cont0 := lookupA parsed.labels ("container")
      let resolved : Option String × Option String × Option String :=
        if strFalsy cont0 then
          let idPath := (lookupA parsed.labels ("id")).getD ("")
          match runtimeIdOf idPath.toList with
          | some rid =>
            match lookupA idx.byRuntimeContainerId (String.mk rid) with
            | some r => (some r.ns, some r.podName, some r.containerName)
            | none => (ns0, pod0, cont0)
          | none => (ns0, pod0, cont0)
        else (ns0, pod0, cont0)
      let ns1 := resolved.1
      let pod1 := resolved.2.1
      let cont1 := resolved.2.2
      if strFalsy ns1 || !(ns1 == some target) || strFalsy pod1 || strFalsy cont1 then st
      else
        let key := ns1.getD ("") ++ "/" ++ pod1.getD ("") ++ "/" ++ cont1.getD ("")
        if parsed.metric = "container_cpu_usage_seconds_total" then
          let entry : CounterEntry :=
            ⟨parsed.value, if parsed.timestamp = 0 then now else parsed.timestamp⟩
          { st with cpuTotals := setA st.cpuTotals key entry }
        else if parsed.metric = "container_memory_working_set_bytes" then
          { st with memoryByContainer := setA st.memoryByContainer key parsed.value }
        else st

/-- Embeds the CPU-rate computation of `fetchViaCadvisor` (lines 353-359):
with a prior counter entry whose cumulative seconds have not decreased and
whose timestamp strictly advanced, the rate is
`max(0, round((Δseconds / Δtime_seconds) * 1000))`; otherwise `0`. A `NaN`
cumulative value on either side fails the comparison, yielding `0`. -/
def cpuRate (prev : Option CounterEntry) (cur : CounterEntry) : ℤ :=
  match prev with
  | none => 0
  | some p =>
    match cur.totalSeconds, p.totalSeconds with
    | some cs, some ps =>
      if ps ≤ cs ∧ p.tsMs < cur.tsMs then
        max 0 (jsRound (qMul (qDiv (qSub cs ps) (qDiv (((cur.tsMs - p.tsMs : ℤ) : ℚ)) 1000)) 1000))
      else 0
    | _, _ => 0

/-- Renders one part of a JS `split('/')` destructuring: a missing component
is `undefined`, which a template literal renders as the text `undefined`. -/
def partStr (parts : List (List Char)) (i : ℕ) : String :=
  match parts.get? i with
  | some p => String.mk p
  | none => "undefined"

/-- The pod-uid resolution of the row loop of `fetchViaCadvisor` (lines
348-351): split the container key, look up `namespace/pod` in the pod index,
and return the uid unless it is falsy (`undefined` or empty). -/
def resolvedUid (idx : PodsIndex) (key : String) : Option String :=
  let parts := splitOnChar '/' key.toList
  match lookupA idx.byNamespaceName (partStr parts 0 ++ "/" ++ partStr parts 1) with
  | none => none
  | some meta =>
    match meta.uid with
    | none => none
    | some u => if u = "" then none else some u

/-- The memory read of the row loop, `memoryByContainer.get(key) || 0`:
an absent gauge, a `NaN` gauge and a `0` gauge all yield `0`. -/
def memGauge (maps : CadvisorMaps) (key : String) : ℚ :=
  match lookupA maps.memoryByContainer key with
  | some (some q) => q
  | _ => 0

/-- One iteration of the row-building loop of `fetchViaCadvisor` (lines
347-372), over one `cpuTotals` entry: skip when the pod uid does not resolve
(note the skip also bypasses the counter update); otherwise compute the CPU
rate against the counter map, overwrite the counter entry, read the memory
gauge (default `0`, clamped at `0` after rounding) and append the row. -/
def cadvisorStep (idx : PodsIndex) (maps : CadvisorMaps)
    (acc : List UsageRow × CounterMap) (kv : String × CounterEntry) :
    List UsageRow × CounterMap :=
  match resolvedUid idx kv.1 with
  | none => acc
  | some uid =>
    let parts := splitOnChar '/' kv.1.toList
    let cpu := cpuRate (lookupA acc.2 kv.1) kv.2
    let counter1 := setA acc.2 kv.1 kv.2
    (acc.1 ++ [{ podUid := uid, podName := partStr parts 1,
                 containerName := partStr parts 2,
                 cpuMillicores := JsVal.int cpu,
                 memoryBytes := JsVal.int (max 0 (jsRound (memGauge maps kv.1))) }], counter1)

/-- Embeds the row-building loop of `fetchViaCadvisor` (lines 346-372): one
row per entry of `cpuTotals` (in insertion order) whose pod uid resolves.
Returns the rows and the updated cross-cycle counter map. -/
def cadvisorRows (idx : PodsIndex) (maps : CadvisorMaps) (counter0 : CounterMap) :
    List UsageRow × CounterMap :=
  maps.cpuTotals.foldl (cadvisorStep idx maps) ([], counter0)

/-- The per-node scrape accumulation of `fetchViaCadvisor`: each node body is
split on newlines and processed line by line into the two metric maps. -/
def buildCadvisorMaps (target : String) (idx : PodsIndex) (now : ℤ)
    (bodies : List (List Char)) : CadvisorMaps :=
  bodies.foldl
    (fun st body => (splitOnChar '\n' body).foldl (processCadvisorLine target idx now) st)
    ⟨[], []⟩

/-- Embeds `fetchViaCadvisor` end to end on already-fetched node metric
bodies: build the metric maps, then the rows and updated counter state. -/
def fetchViaCadvisor (target : String) (idx : PodsIndex) (now : ℤ)
    (bodies : List (List Char)) (counter0 : CounterMap) : List UsageRow × CounterMap :=
  cadvisorRows idx (buildCadvisorMaps target idx now bodies) counter0

/-- A container entry of the aggregated metrics API response:
`container.name` with `container.usage?.cpu` / `container.usage?.memory`
(absent usage object or field modelled as `none`). -/
structure MetricsContainer where
  name : String
  cpu : Option String
  memory : Option String
deriving DecidableEq

/-- A pod entry of the aggregated metrics API response. -/
structure MetricsPod where
  uid : Option String
  name : Option String
  containers : List MetricsContainer
deriving DecidableEq

/-- Embeds `fetchViaMetricsApi` (lines 199-225) on the parsed response: pods
with falsy uid or name are skipped; a falsy usage quantity defaults to the
string `"0"`; each container yields one row through the quantity parsers. -/
def fetchViaMetricsApi (pods : List MetricsPod) : List UsageRow :=
  pods.foldl
    (fun acc pod =>
      if strFalsy pod.uid || strFalsy pod.name then acc
      else
        acc ++ pod.containers.map (fun c =>
          let cpuRaw := if strFalsy c.cpu then ("0") else c.cpu.getD ("")
          let memoryRaw := if strFalsy c.memory then ("0") else c.memory.getD ("")
          { podUid := pod.uid.getD (""), podName := pod.name.getD (""),
            containerName := c.name,
            cpuMillicores := parseCpuToMillicores cpuRaw,
            memoryBytes := parseMemoryToBytes memoryRaw }))
    []

/-- A container entry of the stats-summary API response: `container.name`,
`container.cpu?.usageNanoCores` and `container.memory?.workingSetBytes` /
`container.memory?.usageBytes` (JSON numbers; absence modelled as `none`). -/
structure SummaryContainer where
  name : String
  usageNanoCores : Option ℚ
  workingSetBytes : Option ℚ
  usageBytes : Option ℚ
deriving DecidableEq

/-- A pod entry of the stats-summary API response (`podRef` fields; the
reserved word `namespace` is rendered `ns`). -/
structure SummaryPod where
  ns : Option String
  name : Option String
  uid : Option String
  containers : List SummaryContainer
deriving DecidableEq

/-- Embeds `fetchViaNodeSummary` (lines 227-275) on the parsed summaries of
all nodes (concatenated in node order, as the sequential node loop does):
filter to the target namespace, resolve the pod uid from the summary or the
pod index, and convert `usageNanoCores` (÷1e6) and the working-set/usage
bytes directly. -/
def fetchViaNodeSummary (target : String) (idx : PodsIndex)
    (pods : List SummaryPod) : List UsageRow :=
  pods.foldl
    (fun acc pod =>
      let ns := if strFalsy pod.ns then target else pod.ns.getD ("")
      if ns ≠ target then acc
      else if strFalsy pod.name then acc
      else
        let key := ns ++ "/" ++ pod.name.getD ("")
        let mapped := lookupA idx.byNamespaceName key
        let podUid : Option String :=
          if strFalsy pod.uid then mapped.bind (fun m => m.uid) else pod.uid
        if strFalsy podUid then acc
        else
          acc ++ pod.containers.map (fun c =>
            let cpuNano : ℚ := (c.usageNanoCores).getD 0
            let memoryBytes : ℚ := ((c.workingSetBytes).orElse (fun _ => c.usageBytes)).getD 0
            { podUid := podUid.getD (""), podName := pod.name.getD (""),
              containerName := c.name,
              cpuMillicores := JsVal.int (jsRound (qDiv cpuNano 1000000)),
              memoryBytes := JsVal.int (jsRound memoryBytes) }))
    []

/-- The three acquisition tiers, in their fixed order. -/
inductive Tier where
  | metricsApi : Tier
  | cadvisor : Tier
  | nodeSummary : Tier
deriving DecidableEq

/-- Embeds the try/catch control flow of `fetchUsageRows` (lines 377-392).
The network effects cannot run here, so each tier's outcome (rows, or the
error it would raise) is an input; the second component instruments the
control flow with the trace of tiers attempted, in order: a tier is attempted
exactly when every earlier tier raised, and the first non-raising tier's rows
are returned. -/
def fetchUsageRows (t1 t2 t3 : Except String (List UsageRow)) :
    Except String (List UsageRow) × List Tier :=
  match t1 with
  | Except.ok rows => (Except.ok rows, [Tier.metricsApi])
  | Except.error _ =>
    match t2 with
    | Except.ok rows => (Except.ok rows, [Tier.metricsApi, Tier.cadvisor])
    | Except.error _ => (t3, [Tier.metricsApi, Tier.cadvisor, Tier.nodeSummary])

end PodWatch.ResourceCollector

namespace PodWatch.PodHealth

/-- A container `lastState` object of the dashboard's Kubernetes types. -/
structure LastState where
  reason : String
  exitCode : Option ℤ
  message : Option String
deriving DecidableEq

/-- A container of the dashboard's Kubernetes types (`src/types/kubernetes.ts`);
the status strings are `Running` / `Waiting` / `Terminated`. -/
structure Container where
  id : String
  name : String
  image : String
  status : String
  ready : Bool
  restartCount : ℤ
  startedAt : String
  lastState : Option LastState
deriving DecidableEq

/-- A pod of the dashboard's Kubernetes types (the reserved word `namespace`
is rendered `ns`); `status` ranges over the `PodStatus` union strings. -/
structure Pod where
  id : String
  name : String
  ns : String
  status : String
  nodeName : String
  podIP : String
  createdAt : String
  containers : List Container
  labels : List (String × String)
  restarts : ℤ
deriving DecidableEq

/-- A log entry of the dashboard's Kubernetes types. -/
structure LogEntry where
  id : String
  timestamp : String
  level : String
  message : String
deriving DecidableEq

/-- The `INITIALIZING_REASONS` set of `src/lib/podHealth.ts`. -/
def INITIALIZING_REASONS : List String := ["ContainerCreating", "PodInitializing"]

/-- The `ERROR_REASONS` set of `src/lib/podHealth.ts`. -/
def ERROR_REASONS : List String :=
  ["CrashLoopBackOff", "OOMKilled", "Error", "ImagePullBackOff", "ErrImagePull",
   "CreateContainerConfigError", "InvalidImageName", "RunContainerError"]

/-- The classification record returned by `classifyContainerSeverity`. -/
structure Assessment where
  severity : String
  label : String
  details : Option String
  score : ℤ
deriving DecidableEq

/-- Embeds `classifyContainerSeverity` of `src/lib/podHealth.ts`: rules are
evaluated top to bottom — terminated / fatal last-state reason / ≥ 5 restarts
is `error` with score `100 + restartCount`; waiting on an initialization
reason is `initializing` with score `20`; waiting, not ready, or restarted is
`warning` with score `40 + min(restartCount, 10)`; otherwise `healthy`, `0`. -/
def classifyContainerSeverity (c : Container) : Assessment :=
  let reason := (c.lastState.map (fun s => s.reason)).getD ("")
  let isInitializing := INITIALIZING_REASONS.contains reason || reason.startsWith ("Init:")
  if c.status = "Terminated" ∨ reason ∈ ERROR_REASONS ∨ 5 ≤ c.restartCount then
    ⟨"error", if reason = "" then ("Container failure") else reason,
     c.lastState.bind (fun s => s.message), 100 + c.restartCount⟩
  else if c.status = "Waiting" ∧ isInitializing = true then
    ⟨"initializing", if reason = "" then ("Initializing") else reason,
     c.lastState.bind (fun s => s.message), 20⟩
  else if c.status = "Waiting" ∨ c.ready = false ∨ 0 < c.restartCount then
    ⟨"warning",
     if reason = "" then (if c.status = "Waiting" then ("Waiting") else ("Not ready")) else reason,
     c.lastState.bind (fun s => s.message), 40 + min c.restartCount 10⟩
  else
    ⟨"healthy", "Running", none, 0⟩

/-- The result record of `computePodHealth`. -/
structure HealthResult where
  health : String
  attentionScore : ℤ
  attentionReason : Option String
deriving DecidableEq

/-- Embeds `computePodHealth` of `src/lib/podHealth.ts`: a pod-level status
in `\x7bError, OOMKilled, CrashLoopBackOff\x7d` short-circuits to `error`/`200`;
otherwise the maximum-score container assessment (ties keeping the earlier,
starting from a healthy/0 seed) drives the remaining rules, with error-level
logs and `Pending` status as intermediate warning rules. -/
def computePodHealth (p : Pod) (containerLogs : List (String × List LogEntry)) :
    HealthResult :=
  if p.status ∈ ["Error", "OOMKilled", "CrashLoopBackOff"] then
    ⟨"error", 200, some p.status⟩
  else
    let assessments := p.containers.map classifyContainerSeverity
    let maxA := assessments.foldl (fun mx it => if mx.score < it.score then it else mx)
      ⟨"healthy", "", none, 0⟩
    let hasErrorLogs := p.containers.any (fun c =>
      ((lookupA containerLogs c.id).getD []).any (fun lg => lg.level == "error"))
    if maxA.severity = "error" then
      ⟨"error", maxA.score, some maxA.label⟩
    else if hasErrorLogs = true then
      ⟨"warning", 60, some ("Error logs detected")⟩
    else if p.status = "Pending" ∨ maxA.severity = "warning" then
      ⟨"warning", max maxA.score 35,
       if maxA.label ≠ "" then some maxA.label
       else if p.status = "Pending" then some ("Pending scheduling") else none⟩
    else if maxA.severity = "initializing" then
      ⟨"warning", maxA.score, some maxA.label⟩
    else
      ⟨"healthy", 0, none⟩

end PodWatch.PodHealth

namespace PodWatch.Impact

/-- Embeds `deltaPercent` of the impact-score hook: a zero baseline yields
`0` for a zero current value and `null` (`none`) otherwise; else the relative
change in percent. (The JS `Number.isFinite` guards are vacuous here: every
`ℚ` is finite.) -/
def deltaPercent (current baseline : ℚ) : Option ℚ :=
  if baseline = 0 then (if current = 0 then some 0 else none)
  else some (qMul (qDiv (qSub current baseline) baseline) 100)

/-- Embeds `classifyImpactStatus` of the impact-score hook. -/
def classifyImpactStatus : Option ℚ → String
  | none => "unknown"
  | some s => if 10 ≤ s then ("degraded") else if s ≤ -10 then ("improved") else ("stable")

/-- Windowed p95 statistics of one container, as produced by `getP95Stats`. -/
structure P95Stats where
  cpuP95 : ℚ
  memoryP95 : ℚ
deriving DecidableEq

/-- The per-container comparison record of the impact-score hook. -/
structure ContainerImpact where
  status : String
  score : Option ℚ
  cpuDeltaPercent : Option ℚ
  memoryDeltaPercent : Option ℚ
deriving DecidableEq

/-- The score aggregation of the impact-score hook: the mean of the available
deltas, `null` (`none`) when there are none. -/
def meanOf (deltas : List ℚ) : Option ℚ :=
  if deltas.length = 0 then none
  else some (qDiv (deltas.foldl qAdd 0) (((deltas.length : ℤ) : ℚ)))

/-- Embeds the matched-pair body of `useImpactScores` (lines 159-170): CPU and
memory percent deltas from the two sides' p95 statistics, score as the mean
of the non-null deltas, and the classified status. -/
def containerImpact (cur base : P95Stats) : ContainerImpact :=
  let cpuDelta := deltaPercent cur.cpuP95 base.cpuP95
  let memoryDelta := deltaPercent cur.memoryP95 base.memoryP95
  let deltas := ([cpuDelta, memoryDelta].filterMap id)
  let score := meanOf deltas
  ⟨classifyImpactStatus score, score, cpuDelta, memoryDelta⟩

end PodWatch.Impact

namespace PodWatch.PodHealth

/-- The triage priority table of `sortPodsByHealth` in `src/lib/podHealth.ts`:
`error ↦ 0`, `warning ↦ 1`, `healthy ↦ 2` (lower sorts first). -/
def healthRank (health : String) : ℕ :=
  if health = "error" then 0 else if health = "warning" then 1 else 2

/-- Specification predicate: the four severity classes with their score
bands, as produced by `classifyContainerSeverity` on a container with a
nonnegative restart count. -/
def assessmentBand (a : Assessment) : Prop :=
  (a.severity = "error" ∧ 100 ≤ a.score) ∨
  (a.severity = "initializing" ∧ a.score = 20) ∨
  (a.severity = "warning" ∧ 40 ≤ a.score ∧ a.score ≤ 50) ∨
  (a.severity = "healthy" ∧ a.score = 0)

end PodWatch.PodHealth

namespace PodWatch

/-- Specification predicate: a usage row whose CPU and memory values are
nonnegative integers. -/
def nonnegRow (row : ResourceCollector.UsageRow) : Prop :=
  (∃ z : ℤ, row.cpuMillicores = JsVal.int z ∧ 0 ≤ z) ∧
  (∃ z : ℤ, row.memoryBytes = JsVal.int z ∧ 0 ≤ z)

theorem qMul_eq (a b : ℚ) : qMul a b = a * b := by
  rw [qMul, Rat.divInt_eq_div]
  push_cast
  rw [← div_mul_div_comm, Rat.num_div_den, Rat.num_div_den]

theorem qDiv_eq (a b : ℚ) : qDiv a b = a / b := by
  rw [qDiv, Rat.divInt_eq_div]
  push_cast
  rw [← div_mul_div_comm, Rat.num_div_den, ← inv_div, Rat.num_div_den, ← div_eq_mul_inv]

theorem qAdd_eq (a b : ℚ) : qAdd a b = a + b := by
  have ha : ((a.den : ℚ)) ≠ 0 := Nat.cast_ne_zero.mpr a.den_nz
  have hb : ((b.den : ℚ)) ≠ 0 := Nat.cast_ne_zero.mpr b.den_nz
  rw [qAdd, Rat.divInt_eq_div]
  push_cast
  rw [show ((b.num : ℚ)) * (a.den : ℚ) = (a.den : ℚ) * (b.num : ℚ) from mul_comm _ _,
    ← div_add_div _ _ ha hb, Rat.num_div_den, Rat.num_div_den]

theorem qSub_eq (a b : ℚ) : qSub a b = a - b := by
  have ha : ((a.den : ℚ)) ≠ 0 := Nat.cast_ne_zero.mpr a.den_nz
  have hb : ((b.den : ℚ)) ≠ 0 := Nat.cast_ne_zero.mpr b.den_nz
  rw [qSub, Rat.divInt_eq_div]
  push_cast
  rw [show ((b.num : ℚ)) * (a.den : ℚ) = (a.den : ℚ) * (b.num : ℚ) from mul_comm _ _,
    ← div_sub_div _ _ ha hb, Rat.num_div_den, Rat.num_div_den]

theorem jsRound_eq (q : ℚ) : jsRound q = ⌊q + 1 / 2⌋ := by
  have hden : ((q.den : ℚ)) ≠ 0 := Nat.cast_ne_zero.mpr q.den_nz
  have h1 : q + 1 / 2 = (((2 * q.num + (q.den : ℤ)) : ℤ) : ℚ) / (((2 * q.den : ℕ)) : ℚ) := by
    conv_lhs => rw [← Rat.num_div_den q]
    push_cast
    field_simp
    ring
  rw [h1, Rat.floor_intCast_div_natCast, jsRound]
  rw [Int.fdiv_eq_ediv _ (by positivity)]
  push_cast
  rfl

theorem dropWhile_eq_self_of_all {p : Char → Bool} {l : List Char}
    (h : ∀ c ∈ l, p c = false) : l.dropWhile p = l := by
  cases l with
  | nil => rfl
  | cons a t =>
    rw [List.dropWhile_cons, if_neg]
    simp [h a (List.mem_cons_self a t)]

theorem jsTrim_eq_self_of_all {l : List Char}
    (h : ∀ c ∈ l, isJsSpace c = false) : jsTrim l = l := by
  unfold jsTrim
  rw [dropWhile_eq_self_of_all h,
    dropWhile_eq_self_of_all (fun c hc => h c (List.mem_reverse.mp hc)),
    List.reverse_reverse]

theorem jsTrim_append_char (s : String) (c : Char)
    (hns : ∀ d ∈ s.toList, isJsSpace d = false) (hc : isJsSpace c = false) :
    jsTrim (s.toList ++ [c]) = s.toList ++ [c] := by
  apply jsTrim_eq_self_of_all
  intro d hd
  rcases List.mem_append.mp hd with h1 | h1
  · exact hns d h1
  · rw [List.mem_singleton.mp h1]; exact hc

theorem lookupA_setA_self {α : Type} (m : List (String × α)) (k : String) (v : α) :
    lookupA (setA m k v) k = some v := by
  induction m with
  | nil => simp [setA, lookupA]
  | cons kv t ih =>
    obtain ⟨k1, v1⟩ := kv
    by_cases h : k1 = k
    · simp [setA, h, lookupA]
    · simp [setA, h, lookupA, ih]

theorem lookupA_setA_ne {α : Type} (m : List (String × α)) (k k2 : String) (v : α)
    (h : k2 ≠ k) : lookupA (setA m k2 v) k = lookupA m k := by
  induction m with
  | nil => simp [setA, lookupA, h]
  | cons kv t ih =>
    obtain ⟨k1, v1⟩ := kv
    by_cases h1 : k1 = k2
    · subst h1; simp [setA, lookupA, h]
    · by_cases h2 : k1 = k
      · subst h2; simp [setA, lookupA, h1]
      · simp [setA, lookupA, h1, h2, ih]

theorem roundJs_ne_null (x : JsNum) : roundJs x ≠ JsVal.null := by
  cases x <;> simp [roundJs]

/-- C5: for every CPU quantity string whose numeric part parses, both
collectors' `parseCpuToMillicores` divide by 1e6 for suffix `n`, by 1e3 for
suffix `u`, take the value as-is for suffix `m`, and multiply by 1000 with no
suffix, rounding to the nearest integer; in particular `"500m" ↦ 500`,
`"2" ↦ 2000` and `"250000000n" ↦ 250`. -/
theorem cpu_quantity_spec (s : String) (x : ℚ)
    (hs : s.toList ≠ [])
    (hns : ∀ c ∈ s.toList, isJsSpace c = false)
    (hx : parseFloatQ s.toList = some x) :
    (ResourceCollector.parseCpuToMillicores (s ++ "n") = JsVal.int (jsRound (x / 1000000)) ∧
     ResourceCollector.parseCpuToMillicores (s ++ "u") = JsVal.int (jsRound (x / 1000)) ∧
     ResourceCollector.parseCpuToMillicores (s ++ "m") = JsVal.int (jsRound x) ∧
     (s.toList.getLast? ≠ some 'n' → s.toList.getLast? ≠ some 'u' →
      s.toList.getLast? ≠ some 'm' →
      ResourceCollector.parseCpuToMillicores s = JsVal.int (jsRound (x * 1000)))) ∧
    (K8sCollector.parseCpuToMillicores (s ++ "n") = JsVal.int (jsRound (x / 1000000)) ∧
     K8sCollector.parseCpuToMillicores (s ++ "u") = JsVal.int (jsRound (x / 1000)) ∧
     K8sCollector.parseCpuToMillicores (s ++ "m") = JsVal.int (jsRound x) ∧
     (s.toList.getLast? ≠ some 'n' → s.toList.getLast? ≠ some 'u' →
      s.toList.getLast? ≠ some 'm' →
      K8sCollector.parseCpuToMillicores s = JsVal.int (jsRound (x * 1000)))) ∧
    ResourceCollector.parseCpuToMillicores ("500m") = JsVal.int 500 ∧
    ResourceCollector.parseCpuToMillicores ("2") = JsVal.int 2000 ∧
    ResourceCollector.parseCpuToMillicores ("250000000n") = JsVal.int 250 := by
  have hsne : s ≠ "" := by
    intro h
    apply hs
    rw [h]
    rfl
  have happ : ∀ c : Char, (s ++ String.mk [c]).toList = s.toList ++ [c] := by
    intro c
    show (s ++ String.mk [c]).data = s.data ++ [c]
    rw [String.data_append]
  have happne : ∀ c : Char, (s ++ String.mk [c]) ≠ "" := by
    intro c h
    have h2 := congrArg String.toList h
    rw [happ c] at h2
    simp at h2
  have htr : jsTrim s.toList = s.toList := jsTrim_eq_self_of_all hns
  have htrc : ∀ c : Char, isJsSpace c = false →
      jsTrim (s ++ String.mk [c]).toList = s.toList ++ [c] := by
    intro c hc
    rw [happ c]
    exact jsTrim_append_char s c hns hc
  refine ⟨⟨?_, ?_, ?_, ?_⟩, ⟨?_, ?_, ?_, ?_⟩, by decide, by decide, by decide⟩
  · simp only [ResourceCollector.parseCpuToMillicores, if_neg (happne 'n'),
      htrc 'n' rfl, List.getLast?_concat, List.dropLast_concat, hx,
      Option.map_some', roundJs, qDiv_eq]
    simp
  · simp only [ResourceCollector.parseCpuToMillicores, if_neg (happne 'u'),
      htrc 'u' rfl, List.getLast?_concat, List.dropLast_concat, hx,
      Option.map_some', roundJs, qDiv_eq]
    simp
  · simp only [ResourceCollector.parseCpuToMillicores, if_neg (happne 'm'),
      htrc 'm' rfl, List.getLast?_concat, List.dropLast_concat, hx,
      Option.map_some', roundJs]
    simp
  · intro h1 h2 h3
    simp only [ResourceCollector.parseCpuToMillicores, if_neg hsne, htr, hx,
      Option.map_some', roundJs, qMul_eq]
    rw [if_neg h1, if_neg h2, if_neg h3]
  · simp only [K8sCollector.parseCpuToMillicores, if_neg (happne 'n'),
      htrc 'n' rfl, List.getLast?_concat, List.dropLast_concat, hx,
      Option.map_some', roundJs, qDiv_eq]
    simp
  · simp only [K8sCollector.parseCpuToMillicores, if_neg (happne 'u'),
      htrc 'u' rfl, List.getLast?_concat, List.dropLast_concat, hx,
      Option.map_some', roundJs, qDiv_eq]
    simp
  · simp only [K8sCollector.parseCpuToMillicores, if_neg (happne 'm'),
      htrc 'm' rfl, List.getLast?_concat, List.dropLast_concat, hx,
      Option.map_some', roundJs]
    simp
  · intro h1 h2 h3
    simp only [K8sCollector.parseCpuToMillicores, if_neg hsne, htr, hx, qMul_eq]
    rw [if_neg hs, if_neg h1, if_neg h2, if_neg h3]

/-- C8: a pod whose status is Error, OOMKilled or CrashLoopBackOff is
classified `error` with attention score `200` and reason equal to that
status, regardless of its container states and log signals. -/
theorem pod_error_status_spec (p : PodHealth.Pod)
    (logs : List (String × List PodHealth.LogEntry))
    (h : p.status ∈ ["Error", "OOMKilled", "CrashLoopBackOff"]) :
    PodHealth.computePodHealth p logs = ⟨"error", 200, some p.status⟩ := by
  simp only [PodHealth.computePodHealth, if_pos h]

/-- Witness for C8 at a `CrashLoopBackOff` pod with a healthy container. -/
theorem pod_error_status_spec_witness :
    (("CrashLoopBackOff" : String) ∈ ["Error", "OOMKilled", "CrashLoopBackOff"]) ∧
    PodHealth.computePodHealth
      ⟨"i", "p", "default", "CrashLoopBackOff", "n", "ip", "t",
        [⟨"c1", "c", "img", "Running", true, 0, "t", none⟩], [], 0⟩ [] =
      ⟨"error", 200, some ("CrashLoopBackOff")⟩ :=
  ⟨by decide,
    pod_error_status_spec
      ⟨"i", "p", "default", "CrashLoopBackOff", "n", "ip", "t",
        [⟨"c1", "c", "img", "Running", true, 0, "t", none⟩], [], 0⟩ [] (by decide)⟩

/-- C3: the acquisition engine attempts the tiers at most once each, in the
fixed order metrics API, exposition scrape, stats summary, stopping at the
first tier that completes; in particular when tier 1 raises and tier 2
succeeds, tier 2's rows are returned and tier 3 is never attempted. -/
theorem tier_fallback_spec (t1 t2 t3 : Except String (List ResourceCollector.UsageRow))
    (e : String) (r2 : List ResourceCollector.UsageRow)
    (h1 : t1 = Except.error e) (h2 : t2 = Except.ok r2) :
    (ResourceCollector.fetchUsageRows t1 t2 t3 =
      (Except.ok r2, [ResourceCollector.Tier.metricsApi, ResourceCollector.Tier.cadvisor]) ∧
     ResourceCollector.Tier.nodeSummary ∉ (ResourceCollector.fetchUsageRows t1 t2 t3).2) ∧
    (∀ a b c : Except String (List ResourceCollector.UsageRow),
      (ResourceCollector.fetchUsageRows a b c).2.Nodup ∧
      ((ResourceCollector.fetchUsageRows a b c).2 = [ResourceCollector.Tier.metricsApi] ∨
       (ResourceCollector.fetchUsageRows a b c).2 =
         [ResourceCollector.Tier.metricsApi, ResourceCollector.Tier.cadvisor] ∨
       (ResourceCollector.fetchUsageRows a b c).2 =
         [ResourceCollector.Tier.metricsApi, ResourceCollector.Tier.cadvisor,
          ResourceCollector.Tier.nodeSummary]) ∧
      (∀ rows, a = Except.ok rows →
        ResourceCollector.fetchUsageRows a b c =
          (Except.ok rows, [ResourceCollector.Tier.metricsApi])) ∧
      (∀ ea rows, a = Except.error ea → b = Except.ok rows →
        ResourceCollector.fetchUsageRows a b c =
          (Except.ok rows, [ResourceCollector.Tier.metricsApi, ResourceCollector.Tier.cadvisor])) ∧
      (∀ ea eb, a = Except.error ea → b = Except.error eb →
        ResourceCollector.fetchUsageRows a b c =
          (c, [ResourceCollector.Tier.metricsApi, ResourceCollector.Tier.cadvisor,
               ResourceCollector.Tier.nodeSummary]))) := by
  constructor
  · subst h1 h2
    constructor
    · rfl
    · simp [ResourceCollector.fetchUsageRows]
  · intro a b c
    refine ⟨?_, ?_, ?_, ?_, ?_⟩
    · cases a <;> cases b <;> simp [ResourceCollector.fetchUsageRows]
    · cases a <;> cases b <;> simp [ResourceCollector.fetchUsageRows]
    · intro rows ha; subst ha; rfl
    · intro ea rows ha hb; subst ha hb; rfl
    · intro ea eb ha hb; subst ha hb; rfl

/-- Witness for C3: tier 1 raising and tier 2 succeeding returns tier 2's
rows with only the first two tiers attempted. -/
theorem tier_fallback_spec_witness :
    ResourceCollector.fetchUsageRows (Except.error ("metrics api down")) (Except.ok []) (Except.ok []) =
      (Except.ok [], [ResourceCollector.Tier.metricsApi, ResourceCollector.Tier.cadvisor]) :=
  (tier_fallback_spec (Except.error ("metrics api down")) (Except.ok []) (Except.ok [])
    "metrics api down" [] rfl rfl).1.1

/-- C4: percent delta is `(current − baseline) / baseline × 100` except on a
zero baseline (`0` when current is also `0`, else null); the container impact
score is the mean of the non-null CPU/memory deltas and null when both are
null; the status is `degraded` iff the score is ≥ 10, `improved` iff ≤ −10,
`stable` for other numeric scores, and `unknown` exactly when there is no
score. -/
theorem impact_score_spec (cur base : Impact.P95Stats) :
    (∀ c b : ℚ,
      (b ≠ 0 → Impact.deltaPercent c b = some ((c - b) / b * 100)) ∧
      (b = 0 → c = 0 → Impact.deltaPercent c b = some 0) ∧
      (b = 0 → c ≠ 0 → Impact.deltaPercent c b = none)) ∧
    ((Impact.containerImpact cur base).cpuDeltaPercent =
       Impact.deltaPercent cur.cpuP95 base.cpuP95 ∧
     (Impact.containerImpact cur base).memoryDeltaPercent =
       Impact.deltaPercent cur.memoryP95 base.memoryP95) ∧
    (∀ a b : ℚ, Impact.deltaPercent cur.cpuP95 base.cpuP95 = some a →
       Impact.deltaPercent cur.memoryP95 base.memoryP95 = some b →
       (Impact.containerImpact cur base).score = some ((a + b) / 2)) ∧
    (∀ a : ℚ, Impact.deltaPercent cur.cpuP95 base.cpuP95 = some a →
       Impact.deltaPercent cur.memoryP95 base.memoryP95 = none →
       (Impact.containerImpact cur base).score = some a) ∧
    (∀ b : ℚ, Impact.deltaPercent cur.cpuP95 base.cpuP95 = none →
       Impact.deltaPercent cur.memoryP95 base.memoryP95 = some b →
       (Impact.containerImpact cur base).score = some b) ∧
    (Impact.deltaPercent cur.cpuP95 base.cpuP95 = none →
       Impact.deltaPercent cur.memoryP95 base.memoryP95 = none →
       (Impact.containerImpact cur base).score = none) ∧
    ((Impact.containerImpact cur base).status = "unknown" ↔
       (Impact.containerImpact cur base).score = none) ∧
    (∀ s2 : ℚ, (Impact.containerImpact cur base).score = some s2 →
       (((Impact.containerImpact cur base).status = "degraded" ↔ 10 ≤ s2) ∧
        ((Impact.containerImpact cur base).status = "improved" ↔ s2 ≤ -10) ∧
        ((Impact.containerImpact cur base).status = "stable" ↔
          (-10 < s2 ∧ s2 < 10)))) := by
  have hst : ∀ s2 : ℚ,
      (Impact.classifyImpactStatus (some s2) = "degraded" ↔ 10 ≤ s2) ∧
      (Impact.classifyImpactStatus (some s2) = "improved" ↔ s2 ≤ -10) ∧
      (Impact.classifyImpactStatus (some s2) = "stable" ↔ (-10 < s2 ∧ s2 < 10)) := by
    intro s2
    by_cases h10 : 10 ≤ s2
    · have hm : ¬ s2 ≤ -10 := by linarith
      have hlt : ¬ s2 < 10 := not_lt.mpr h10
      simp [Impact.classifyImpactStatus, h10, hm, hlt]
    · by_cases hm10 : s2 ≤ -10
      · have : ¬ (-10 : ℚ) < s2 := not_lt.mpr hm10
        simp [Impact.classifyImpactStatus, h10, hm10, this]
      · simp [Impact.classifyImpactStatus, h10, hm10, not_le.mp h10, not_le.mp hm10]
  refine ⟨?_, ?_, ?_, ?_, ?_, ?_, ?_, ?_⟩
  · intro c b
    refine ⟨?_, ?_, ?_⟩
    · intro hb
      simp [Impact.deltaPercent, hb, qMul_eq, qDiv_eq, qSub_eq]
    · intro hb hc
      simp [Impact.deltaPercent, hb, hc]
    · intro hb hc
      simp [Impact.deltaPercent, hb, hc]
  · constructor <;> simp [Impact.containerImpact]
  · intro a b hcd hmd
    simp only [Impact.containerImpact, hcd, hmd, List.filterMap, Impact.meanOf]
    simp [qAdd_eq, qDiv_eq]
  · intro a hcd hmd
    simp only [Impact.containerImpact, hcd, hmd, List.filterMap, Impact.meanOf]
    simp [qAdd_eq, qDiv_eq]
  · intro b hcd hmd
    simp only [Impact.containerImpact, hcd, hmd, List.filterMap, Impact.meanOf]
    simp [qAdd_eq, qDiv_eq]
  · intro hcd hmd
    simp [Impact.containerImpact, hcd, hmd, List.filterMap, Impact.meanOf]
  · cases hsc : (Impact.containerImpact cur base).score with
    | none =>
      have : (Impact.containerImpact cur base).status =
          Impact.classifyImpactStatus (Impact.containerImpact cur base).score := by
        simp [Impact.containerImpact]
      rw [this, hsc]
      simp [Impact.classifyImpactStatus]
    | some s2 =>
      have : (Impact.containerImpact cur base).status =
          Impact.classifyImpactStatus (Impact.containerImpact cur base).score := by
        simp [Impact.containerImpact]
      rw [this, hsc]
      simp only [Impact.classifyImpactStatus]
      split_ifs <;> simp
  · intro s2 hsc
    have hs : (Impact.containerImpact cur base).status =
        Impact.classifyImpactStatus (Impact.containerImpact cur base).score := by
      simp [Impact.containerImpact]
    rw [hs, hsc]
    exact hst s2

/-- Witness for C4: a 30 percent CPU regression with flat memory classifies
as degraded. -/
theorem impact_score_spec_witness :
    ((100 : ℚ) ≠ 0) ∧
    Impact.deltaPercent 130 100 = some ((130 - 100) / 100 * 100) :=
  ⟨by decide, ((impact_score_spec ⟨130, 100⟩ ⟨100, 100⟩).1 130 100).1 (by decide)⟩

/-- C9 (amended): the resource-sampler and inventory-sync quantity parsers
are not extensionally equal — on empty/missing input the former returns `0`
and the latter `null` — and they disagree exactly on the inputs where the
inventory-sync version returns `null` (all of which are unparsable or
missing); on every other input, including unparsable inputs whose failure
surfaces as `NaN` in both (e.g. `"zn"`), they agree. -/
theorem quantity_default_disagreement :
    (∀ q : String,
      (ResourceCollector.parseCpuToMillicores q ≠ K8sCollector.parseCpuToMillicores q ↔
        K8sCollector.parseCpuToMillicores q = JsVal.null) ∧
      (ResourceCollector.parseMemoryToBytes q ≠ K8sCollector.parseMemoryToBytes q ↔
        K8sCollector.parseMemoryToBytes q = JsVal.null)) ∧
    ResourceCollector.parseCpuToMillicores ("") = JsVal.int 0 ∧
    ResourceCollector.parseMemoryToBytes ("") = JsVal.int 0 ∧
    K8sCollector.parseCpuToMillicores ("") = JsVal.null ∧
    K8sCollector.parseMemoryToBytes ("") = JsVal.null := by
  refine ⟨fun q => ⟨?_, ?_⟩, by decide, by decide, by decide, by decide⟩
  · by_cases hq : q = ""
    · subst hq; decide
    · simp only [ResourceCollector.parseCpuToMillicores, K8sCollector.parseCpuToMillicores,
        if_neg hq]
      cases hv : jsTrim q.toList with
      | nil =>
        have hpf : parseFloatQ [] = none := by decide
        simp [hpf, roundJs]
      | cons c t =>
        by_cases h1 : (c :: t).getLast? = some 'n'
        · rw [h1]
          simp [roundJs_ne_null]
        · by_cases h2 : (c :: t).getLast? = some 'u'
          · rw [h2]
            simp [roundJs_ne_null]
          · by_cases h3 : (c :: t).getLast? = some 'm'
            · rw [h3]
              simp [roundJs_ne_null]
            · rw [if_neg h1, if_neg h2, if_neg h3,
                if_neg (show ¬ (c :: t = []) from by simp),
                if_neg h1, if_neg h2, if_neg h3]
              cases hpf : parseFloatQ (c :: t) with
              | none => simp [hpf, roundJs]
              | some y => simp [hpf, roundJs]
  · by_cases hq : q = ""
    · subst hq; decide
    · simp only [ResourceCollector.parseMemoryToBytes, K8sCollector.parseMemoryToBytes,
        if_neg hq]
      cases hv : jsTrim q.toList with
      | nil =>
        have hm : ResourceCollector.memMatch [] = none := by decide
        simp [hm]
      | cons c t =>
        rw [if_neg (show ¬ (c :: t = []) from by simp)]
        cases hm : ResourceCollector.memMatch (c :: t) with
        | none => simp [hm]
        | some p2 =>
          obtain ⟨np, up⟩ := p2
          simp only [hm]
          cases hpf : parseFloatQ np with
          | none =>
            cases hb : ResourceCollector.binFactor (String.mk (up.map Char.toUpper)) with
            | some f => simp [hb, hpf, roundJs]
            | none =>
              cases hd : ResourceCollector.decFactor (String.mk (up.map Char.toUpper)) with
              | some f => simp [hb, hd, hpf, roundJs]
              | none => simp [hb, hd, hpf, roundJs]
          | some y =>
            cases hb : ResourceCollector.binFactor (String.mk (up.map Char.toUpper)) with
            | some f => simp [hb, hpf, roundJs]
            | none =>
              cases hd : ResourceCollector.decFactor (String.mk (up.map Char.toUpper)) with
              | some f => simp [hb, hd, hpf, roundJs]
              | none => simp [hb, hd, hpf, roundJs]

/-- Witness for C9 at the empty quantity, where the two parsers disagree. -/
theorem quantity_default_disagreement_witness :
    ResourceCollector.parseCpuToMillicores ("") ≠ K8sCollector.parseCpuToMillicores ("") ↔
      K8sCollector.parseCpuToMillicores ("") = JsVal.null :=
  (quantity_default_disagreement.1 ("")).1

/-- Counterexample for C9 as stated: `"zn"` is an unparsable quantity (its
numeric part parses as `NaN`), yet the two collectors' CPU parsers agree on
it (both return `NaN`), so the pair does not differ on every
unparsable/missing input. -/
theorem unparsable_agreement :
    ResourceCollector.parseCpuToMillicores ("zn") = JsVal.nan ∧
    K8sCollector.parseCpuToMillicores ("zn") = JsVal.nan ∧
    ResourceCollector.parseCpuToMillicores ("zn") = K8sCollector.parseCpuToMillicores ("zn") := by
  decide

/-- Witness for C5 at the quantity `"250000000n"`. -/
theorem cpu_quantity_spec_witness :
    (("250000000" : String).toList ≠ [] ∧
      parseFloatQ ("250000000" : String).toList = some 250000000) ∧
    ResourceCollector.parseCpuToMillicores ("250000000" ++ "n") =
      JsVal.int (jsRound ((250000000 : ℚ) / 1000000)) :=
  ⟨⟨by decide, by decide⟩,
    (cpu_quantity_spec ("250000000") 250000000 (by decide) (by decide) (by decide)).1.1⟩

theorem cadvisor_fold_counter_not_mem (idx : ResourceCollector.PodsIndex)
    (maps : ResourceCollector.CadvisorMaps) :
    ∀ (l : List (String × ResourceCollector.CounterEntry))
      (acc : List ResourceCollector.UsageRow × ResourceCollector.CounterMap)
      (key : String), key ∉ l.map Prod.fst →
      lookupA (l.foldl (ResourceCollector.cadvisorStep idx maps) acc).2 key =
        lookupA acc.2 key := by
  intro l
  induction l with
  | nil => intro acc key _; rfl
  | cons kv t ih =>
    intro acc key h
    have hk : key ≠ kv.1 := by
      intro he
      exact h (by simp [he])
    have ht : key ∉ t.map Prod.fst := by
      intro hm
      exact h (by simp [hm])
    rw [List.foldl_cons, ih _ key ht]
    cases hres : ResourceCollector.resolvedUid idx kv.1 with
    | none => simp [ResourceCollector.cadvisorStep, hres]
    | some uid =>
      simp only [ResourceCollector.cadvisorStep, hres]
      exact lookupA_setA_ne _ _ _ _ (fun he => hk he.symm)

theorem cadvisor_fold_counter_mem (idx : ResourceCollector.PodsIndex)
    (maps : ResourceCollector.CadvisorMaps) :
    ∀ (l : List (String × ResourceCollector.CounterEntry))
      (acc : List ResourceCollector.UsageRow × ResourceCollector.CounterMap)
      (key : String) (info : ResourceCollector.CounterEntry),
      (l.map Prod.fst).Nodup → (key, info) ∈ l →
      (ResourceCollector.resolvedUid idx key).isSome →
      lookupA (l.foldl (ResourceCollector.cadvisorStep idx maps) acc).2 key = some info := by
  intro l
  induction l with
  | nil => intro acc key info _ h _; exact absurd h (List.not_mem_nil _)
  | cons kv t ih =>
    intro acc key info hnd hmem hres
    rcases List.mem_cons.mp hmem with he | htl
    · obtain ⟨k0, i0⟩ := kv
      obtain ⟨hkey, hinfo⟩ := Prod.mk.injEq .. ▸ he
      subst hkey hinfo
      rw [List.foldl_cons]
      have hnk : key ∉ t.map Prod.fst := by
        have := hnd
        rw [List.map_cons] at this
        exact this.not_mem
      rw [cadvisor_fold_counter_not_mem idx maps t _ key hnk]
      obtain ⟨uid, hu⟩ := Option.isSome_iff_exists.mp hres
      simp [ResourceCollector.cadvisorStep, hu, lookupA_setA_self]
    · rw [List.foldl_cons]
      apply ih _ key info _ htl hres
      rw [List.map_cons] at hnd
      exact hnd.of_cons

/-- C2: for a resolved container key in the exposition tier, with a prior
counter entry, new cumulative seconds ≥ the prior value and a strictly
advanced timestamp, the rate is `max(0, round(1000·Δseconds/Δtime_seconds))`;
otherwise (first observation or counter reset) it is `0`, never negative;
and the counter map is always overwritten with the latest observation for
every resolved key. Observing `(10 s, t=1000 ms)` then `(10.5 s, t=2000 ms)`
yields `0` then `500`. -/
theorem cpu_rate_counter_spec (prev cur : ResourceCollector.CounterEntry) (ps cs : ℚ)
    (hp : prev.totalSeconds = some ps) (hc : cur.totalSeconds = some cs) :
    ((ps ≤ cs → prev.tsMs < cur.tsMs →
       ResourceCollector.cpuRate (some prev) cur =
         max 0 (jsRound (1000 * (cs - ps) / (((cur.tsMs - prev.tsMs : ℤ) : ℚ) / 1000)))) ∧
     (¬ (ps ≤ cs ∧ prev.tsMs < cur.tsMs) → ResourceCollector.cpuRate (some prev) cur = 0) ∧
     (∀ c : ResourceCollector.CounterEntry, ResourceCollector.cpuRate none c = 0)) ∧
    (∀ (idx : ResourceCollector.PodsIndex) (maps : ResourceCollector.CadvisorMaps)
       (counter0 : ResourceCollector.CounterMap) (key : String)
       (info : ResourceCollector.CounterEntry),
       (maps.cpuTotals.map Prod.fst).Nodup → (key, info) ∈ maps.cpuTotals →
       (ResourceCollector.resolvedUid idx key).isSome →
       lookupA (ResourceCollector.cadvisorRows idx maps counter0).2 key = some info) ∧
    (ResourceCollector.cpuRate none ⟨some 10, 1000⟩ = 0 ∧
     ResourceCollector.cpuRate (some ⟨some 10, 1000⟩) ⟨some (mkRat 21 2), 2000⟩ = 500) := by
  refine ⟨⟨?_, ?_, fun c => rfl⟩, ?_, by decide, by decide⟩
  · intro hge ht
    simp only [ResourceCollector.cpuRate, hp, hc]
    rw [if_pos ⟨hge, ht⟩]
    have harg : qMul (qDiv (qSub cs ps) (qDiv (((cur.tsMs - prev.tsMs : ℤ) : ℚ)) 1000)) 1000 =
        1000 * (cs - ps) / (((cur.tsMs - prev.tsMs : ℤ) : ℚ) / 1000) := by
      rw [qMul_eq, qDiv_eq, qDiv_eq, qSub_eq]
      ring
    rw [harg]
  · intro h
    simp only [ResourceCollector.cpuRate, hp, hc]
    rw [if_neg h]
  · intro idx maps counter0 key info hnd hmem hres
    unfold ResourceCollector.cadvisorRows
    exact cadvisor_fold_counter_mem idx maps _ _ key info hnd hmem hres

/-- Witness for C2 at the observation pair `(10 s, 1000 ms)`, `(10.5 s, 2000 ms)`. -/
theorem cpu_rate_counter_spec_witness :
    ((10 : ℚ) ≤ mkRat 21 2 ∧ (1000 : ℤ) < 2000) ∧
    ResourceCollector.cpuRate (some ⟨some 10, 1000⟩) ⟨some (mkRat 21 2), 2000⟩ =
      max 0 (jsRound (1000 * (mkRat 21 2 - 10) / (((2000 - 1000 : ℤ) : ℚ) / 1000))) :=
  ⟨⟨by decide, by decide⟩,
    (cpu_rate_counter_spec ⟨some 10, 1000⟩ ⟨some (mkRat 21 2), 2000⟩ 10 (mkRat 21 2)
      rfl rfl).1.1 (by decide) (by decide)⟩

/-- C6 (amended): the exposition line parser returns no result for a line
missing a `\x7b...\x7d` label block; any accepted line's value field is a
nonempty run of characters from the class `0-9 e E + . -` (so a value with
any character outside the class is rejected); and the scrape loop leaves its
maps unchanged on lines that do not parse, as well as on empty and comment
lines. A value drawn from the class that still fails numeric parsing (e.g.
`e`) instead yields an entry whose value is `NaN` — see the counterexample. -/
theorem exposition_line_skip_spec :
    (∀ (now : ℤ) (line : List Char), '{' ∉ line → parsePrometheusLine now line = none) ∧
    (∀ (now : ℤ) (line : List Char) (r : PromSample),
       parsePrometheusLine now line = some r →
       r.valueRaw ≠ [] ∧ ∀ c ∈ r.valueRaw, isValueChar c = true) ∧
    (∀ (target : String) (idx : ResourceCollector.PodsIndex) (now : ℤ)
       (st : ResourceCollector.CadvisorMaps) (line : List Char),
       parsePrometheusLine now (jsTrim line) = none →
       ResourceCollector.processCadvisorLine target idx now st line = st) ∧
    (∀ (target : String) (idx : ResourceCollector.PodsIndex) (now : ℤ)
       (st : ResourceCollector.CadvisorMaps),
       ResourceCollector.processCadvisorLine target idx now st [] = st) ∧
    (∀ (target : String) (idx : ResourceCollector.PodsIndex) (now : ℤ)
       (st : ResourceCollector.CadvisorMaps) (line : List Char),
       line.head? = some '#' →
       ResourceCollector.processCadvisorLine target idx now st line = st) := by
  refine ⟨?_, ?_, ?_, ?_, ?_⟩
  · intro now line hbrace
    cases line with
    | nil => rfl
    | cons c rest =>
      by_cases hm : isMetricStart c = true
      case neg => simp [parsePrometheusLine, hm]
      case pos =>
        simp only [parsePrometheusLine, if_pos hm]
        split
        case h_1 afterBrace heq =>
          exfalso
          apply hbrace
          have h1 : '{' ∈ rest.dropWhile isMetricChar := by
            rw [heq]
            exact List.mem_cons_self _ _
          exact List.mem_cons_of_mem c ((List.dropWhile_sublist _).mem h1)
        case h_2 => rfl
  · intro now line r h
    cases line with
    | nil => exact Option.noConfusion h
    | cons c rest =>
      by_cases hm : isMetricStart c = true
      case neg =>
        rw [parsePrometheusLine, if_neg hm] at h
        exact Option.noConfusion h
      case pos =>
        rw [parsePrometheusLine, if_pos hm] at h
        split at h <;> try exact Option.noConfusion h
        split at h <;> try exact Option.noConfusion h
        dsimp only at h
        split at h
        · exact Option.noConfusion h
        · split at h
          · exact Option.noConfusion h
          · split at h
            · injection h with h2
              subst h2
              exact ⟨by assumption, fun c hc => List.mem_takeWhile_imp hc⟩
            · split at h
              · exact Option.noConfusion h
              · split at h
                · injection h with h2
                  subst h2
                  exact ⟨by assumption, fun c hc => List.mem_takeWhile_imp hc⟩
                · exact Option.noConfusion h
  · intro target idx now st line hparse
    by_cases hskip : line = [] ∨ line.head? = some '#'
    · simp [ResourceCollector.processCadvisorLine, hskip]
    · simp [ResourceCollector.processCadvisorLine, hskip, hparse]
  · intro target idx now st
    simp [ResourceCollector.processCadvisorLine]
  · intro target idx now st line hhead
    simp [ResourceCollector.processCadvisorLine, hhead]

/-- Witness for C6 at a line without a label block. -/
theorem exposition_line_skip_spec_witness :
    '{' ∉ ("metric_no_labels 3" : String).toList ∧
    parsePrometheusLine 7 ("metric_no_labels 3" : String).toList = none :=
  ⟨by decide, exposition_line_skip_spec.1 7 ("metric_no_labels 3" : String).toList (by decide)⟩

/-- Counterexample for C6 as stated: the line `m\x7ba="b"\x7d e` has the
non-numeric value field `e` (inside the accepted class `0-9eE+.-`), and the
parser returns a result with value `NaN` rather than no result. -/
theorem exposition_nan_value_parses :
    parsePrometheusLine 5 ("m\x7ba=\"b\"\x7d e").toList =
      some ⟨"m", [("a", "b")], none, "e".toList, 5⟩ ∧
    parsePrometheusLine 5 ("m\x7ba=\"b\"\x7d e").toList ≠ none := by
  constructor
  · decide
  · decide

theorem cpuRate_nonneg (prev : Option ResourceCollector.CounterEntry)
    (cur : ResourceCollector.CounterEntry) : 0 ≤ ResourceCollector.cpuRate prev cur := by
  obtain ⟨cts, ctm⟩ := cur
  cases prev with
  | none => exact le_refl 0
  | some p =>
    obtain ⟨pts, ptm⟩ := p
    cases cts with
    | none => exact le_refl 0
    | some cs =>
      cases pts with
      | none => exact le_refl 0
      | some ps =>
        simp only [ResourceCollector.cpuRate]
        by_cases hcond : ps ≤ cs ∧ ptm < ctm
        · rw [if_pos hcond]
          exact le_max_left 0 _
        · rw [if_neg hcond]

theorem cadvisor_fold_rows_nonneg (idx : ResourceCollector.PodsIndex)
    (maps : ResourceCollector.CadvisorMaps) :
    ∀ (l : List (String × ResourceCollector.CounterEntry))
      (acc : List ResourceCollector.UsageRow × ResourceCollector.CounterMap),
      (∀ row ∈ acc.1, nonnegRow row) →
      ∀ row ∈ (l.foldl (ResourceCollector.cadvisorStep idx maps) acc).1, nonnegRow row := by
  intro l
  induction l with
  | nil => intro acc hacc row hrow; exact hacc row hrow
  | cons kv t ih =>
    intro acc hacc row hrow
    rw [List.foldl_cons] at hrow
    refine ih _ ?_ row hrow
    intro r hr
    cases hres : ResourceCollector.resolvedUid idx kv.1 with
    | none =>
      simp only [ResourceCollector.cadvisorStep, hres] at hr
      exact hacc r hr
    | some uid =>
      simp only [ResourceCollector.cadvisorStep, hres] at hr
      rcases List.mem_append.mp hr with h1 | h1
      · exact hacc r h1
      · rw [List.mem_singleton.mp h1]
        exact ⟨⟨_, rfl, cpuRate_nonneg _ _⟩, ⟨_, rfl, le_max_left 0 _⟩⟩

/-- C7 (amended): every row the exposition tier produces has nonnegative
integer `cpuMillicores` and `memoryBytes`, for arbitrary accumulated metric
maps and counter state; the metrics-API and stats-summary tiers do not clamp
and can produce negative values when the source supplies a negative quantity
(see the counterexample). -/
theorem exposition_rows_nonneg (idx : ResourceCollector.PodsIndex)
    (maps : ResourceCollector.CadvisorMaps) (counter0 : ResourceCollector.CounterMap)
    (row : ResourceCollector.UsageRow)
    (h : row ∈ (ResourceCollector.cadvisorRows idx maps counter0).1) :
    nonnegRow row := by
  unfold ResourceCollector.cadvisorRows at h
  refine cadvisor_fold_rows_nonneg idx maps _ _ ?_ row h
  intro r hr
  exact absurd hr (List.not_mem_nil _)

/-- Witness for C7 at a one-entry CPU map. -/
theorem exposition_rows_nonneg_witness :
    ((⟨"u1", "p", "c", JsVal.int 0, JsVal.int 0⟩ : ResourceCollector.UsageRow) ∈
      (ResourceCollector.cadvisorRows ⟨[("default/p", ⟨some ("u1"), none⟩)], []⟩
        ⟨[("default/p/c", ⟨some 10, 1000⟩)], []⟩ []).1) ∧
    nonnegRow ⟨"u1", "p", "c", JsVal.int 0, JsVal.int 0⟩ :=
  ⟨by decide,
    exposition_rows_nonneg ⟨[("default/p", ⟨some ("u1"), none⟩)], []⟩
      ⟨[("default/p/c", ⟨some 10, 1000⟩)], []⟩ []
      ⟨"u1", "p", "c", JsVal.int 0, JsVal.int 0⟩ (by decide)⟩

/-- Counterexample for C7 as stated: a metrics-API (tier 1) response whose
CPU quantity string is `-5` produces a row with `cpuMillicores = -5000 < 0`. -/
theorem metrics_api_negative_cpu :
    ResourceCollector.fetchViaMetricsApi
      [⟨some ("u"), some ("p"), [⟨"c", some ("-5"), some ("1")⟩]⟩] =
      [⟨"u", "p", "c", JsVal.int (-5000), JsVal.int 1⟩] ∧
    ((-5000 : ℤ) < 0) := by
  constructor
  · decide
  · decide

theorem cadvisor_fold_rows_mono (idx : ResourceCollector.PodsIndex)
    (maps : ResourceCollector.CadvisorMaps) :
    ∀ (l : List (String × ResourceCollector.CounterEntry))
      (acc : List ResourceCollector.UsageRow × ResourceCollector.CounterMap)
      (row : ResourceCollector.UsageRow), row ∈ acc.1 →
      row ∈ (l.foldl (ResourceCollector.cadvisorStep idx maps) acc).1 := by
  intro l
  induction l with
  | nil => intro acc row h; exact h
  | cons kv t ih =>
    intro acc row h
    rw [List.foldl_cons]
    apply ih
    cases hres : ResourceCollector.resolvedUid idx kv.1 with
    | none => simp only [ResourceCollector.cadvisorStep, hres]; exact h
    | some uid =>
      simp only [ResourceCollector.cadvisorStep, hres]
      exact List.mem_append_left _ h

theorem cadvisor_fold_rows_length (idx : ResourceCollector.PodsIndex)
    (maps : ResourceCollector.CadvisorMaps) :
    ∀ (l : List (String × ResourceCollector.CounterEntry))
      (acc : List ResourceCollector.UsageRow × ResourceCollector.CounterMap),
      (l.foldl (ResourceCollector.cadvisorStep idx maps) acc).1.length =
        acc.1.length +
          (l.filter (fun kv => (ResourceCollector.resolvedUid idx kv.1).isSome)).length := by
  intro l
  induction l with
  | nil => intro acc; simp
  | cons kv t ih =>
    intro acc
    rw [List.foldl_cons, ih]
    cases hres : ResourceCollector.resolvedUid idx kv.1 with
    | none =>
      simp [ResourceCollector.cadvisorStep, hres, List.filter_cons]
    | some uid =>
      simp [ResourceCollector.cadvisorStep, hres, List.filter_cons]
      omega

theorem cadvisor_fold_rows_mem (idx : ResourceCollector.PodsIndex)
    (maps : ResourceCollector.CadvisorMaps) :
    ∀ (l : List (String × ResourceCollector.CounterEntry))
      (acc : List ResourceCollector.UsageRow × ResourceCollector.CounterMap)
      (key : String) (info : ResourceCollector.CounterEntry),
      (key, info) ∈ l → ∀ u, ResourceCollector.resolvedUid idx key = some u →
      ∃ row ∈ (l.foldl (ResourceCollector.cadvisorStep idx maps) acc).1,
        row.podUid = u ∧
        row.podName = ResourceCollector.partStr (splitOnChar '/' key.toList) 1 ∧
        row.containerName = ResourceCollector.partStr (splitOnChar '/' key.toList) 2 ∧
        row.memoryBytes = JsVal.int (max 0 (jsRound (ResourceCollector.memGauge maps key))) := by
  intro l
  induction l with
  | nil => intro acc key info h; exact absurd h (List.not_mem_nil _)
  | cons kv t ih =>
    intro acc key info hmem u hu
    rcases List.mem_cons.mp hmem with he | htl
    · obtain ⟨k0, i0⟩ := kv
      have hk : k0 = key := by
        have := congrArg Prod.fst he
        exact this.symm
      subst hk
      rw [List.foldl_cons]
      refine ⟨{ podUid := u,
                podName := ResourceCollector.partStr (splitOnChar '/' k0.toList) 1,
                containerName := ResourceCollector.partStr (splitOnChar '/' k0.toList) 2,
                cpuMillicores := JsVal.int (ResourceCollector.cpuRate (lookupA acc.2 k0) i0),
                memoryBytes :=
                  JsVal.int (max 0 (jsRound (ResourceCollector.memGauge maps k0))) }, ?_,
              rfl, rfl, rfl, rfl⟩
      apply cadvisor_fold_rows_mono
      simp only [ResourceCollector.cadvisorStep, hu]
      have hi : i0 = info := by
        have := congrArg Prod.snd he
        exact this.symm
      subst hi
      exact List.mem_append_right _ (List.mem_singleton.mpr rfl)
    · rw [List.foldl_cons]
      exact ih _ key info htl u hu

/-- C1 (amended): during an exposition-scrape cycle a container produces a
sample row exactly when its `container_cpu_usage_seconds_total` series was
observed and its identity resolves — the row count equals the count of
resolved CPU-series keys, and each such key yields a row carrying the
observed memory gauge (defaulting to `0` when the memory series is absent);
a container whose memory series is present but whose CPU series is absent
contributes nothing (see the counterexample). -/
theorem cadvisor_rows_require_cpu_series (idx : ResourceCollector.PodsIndex)
    (maps : ResourceCollector.CadvisorMaps) (counter0 : ResourceCollector.CounterMap) :
    ((ResourceCollector.cadvisorRows idx maps counter0).1.length =
      (maps.cpuTotals.filter
        (fun kv => (ResourceCollector.resolvedUid idx kv.1).isSome)).length) ∧
    (maps.cpuTotals = [] → (ResourceCollector.cadvisorRows idx maps counter0).1 = []) ∧
    (∀ key info, (key, info) ∈ maps.cpuTotals →
      ∀ u, ResourceCollector.resolvedUid idx key = some u →
      ∃ row ∈ (ResourceCollector.cadvisorRows idx maps counter0).1,
        row.podUid = u ∧
        row.podName = ResourceCollector.partStr (splitOnChar '/' key.toList) 1 ∧
        row.containerName = ResourceCollector.partStr (splitOnChar '/' key.toList) 2 ∧
        row.memoryBytes = JsVal.int (max 0 (jsRound (ResourceCollector.memGauge maps key)))) := by
  refine ⟨?_, ?_, ?_⟩
  · unfold ResourceCollector.cadvisorRows
    rw [cadvisor_fold_rows_length idx maps maps.cpuTotals ([], counter0)]
    simp
  · intro h
    unfold ResourceCollector.cadvisorRows
    rw [h]
    rfl
  · intro key info hmem u hu
    exact cadvisor_fold_rows_mem idx maps maps.cpuTotals ([], counter0) key info hmem u hu

/-- Witness for C1 on a one-entry CPU map with resolving identity. -/
theorem cadvisor_rows_require_cpu_series_witness :
    (ResourceCollector.cadvisorRows ⟨[("default/p", ⟨some ("u1"), none⟩)], []⟩
       ⟨[("default/p/c", ⟨some 10, 1000⟩)], []⟩ []).1.length =
      ((⟨[("default/p/c", ⟨some 10, 1000⟩)], []⟩ :
          ResourceCollector.CadvisorMaps).cpuTotals.filter
        (fun kv =>
          (ResourceCollector.resolvedUid
            ⟨[("default/p", ⟨some ("u1"), none⟩)], []⟩ kv.1).isSome)).length :=
  (cadvisor_rows_require_cpu_series ⟨[("default/p", ⟨some ("u1"), none⟩)], []⟩
    ⟨[("default/p/c", ⟨some 10, 1000⟩)], []⟩ []).1

/-- Counterexample for C1 as stated: an exposition scrape exposing only the
memory series of container `default/p/c` (whose identity resolves to pod uid
`u1`) records the gauge in the memory map, yet the cycle produces no row at
all for the container, instead of a row with `cpuMillicores = 0` and
`memoryBytes = 100`. -/
theorem cadvisor_memory_only_container_dropped :
    (ResourceCollector.buildCadvisorMaps ("default") ⟨[("default/p", ⟨some ("u1"), none⟩)], []⟩ 5
      ["container_memory_working_set_bytes\x7bnamespace=\"default\",pod=\"p\",container=\"c\"\x7d 100".toList]).memoryByContainer =
      [("default/p/c", some 100)] ∧
    ResourceCollector.resolvedUid ⟨[("default/p", ⟨some ("u1"), none⟩)], []⟩ "default/p/c" =
      some ("u1") ∧
    (ResourceCollector.fetchViaCadvisor ("default") ⟨[("default/p", ⟨some ("u1"), none⟩)], []⟩ 5
      ["container_memory_working_set_bytes\x7bnamespace=\"default\",pod=\"p\",container=\"c\"\x7d 100".toList]
      []).1 = [] := by
  refine ⟨by decide, by decide, by decide⟩

theorem classify_band (c : PodHealth.Container) (h : 0 ≤ c.restartCount) :
    PodHealth.assessmentBand (PodHealth.classifyContainerSeverity c) := by
  unfold PodHealth.classifyContainerSeverity
  dsimp only
  split_ifs <;>
    first
    | exact Or.inl ⟨rfl, by simp; omega⟩
    | exact Or.inr (Or.inl ⟨rfl, rfl⟩)
    | exact Or.inr (Or.inr (Or.inr ⟨rfl, rfl⟩))
    | (refine Or.inr (Or.inr (Or.inl ⟨rfl, ?_, ?_⟩)) <;> simp <;> omega)

theorem foldl_band (l : List PodHealth.Assessment) :
    ∀ init : PodHealth.Assessment, PodHealth.assessmentBand init →
      (∀ a ∈ l, PodHealth.assessmentBand a) →
      PodHealth.assessmentBand
        (l.foldl (fun mx it => if mx.score < it.score then it else mx) init) := by
  induction l with
  | nil => intro init hi _; exact hi
  | cons a t ih =>
    intro init hi hl
    rw [List.foldl_cons]
    apply ih
    · by_cases hsc : init.score < a.score
      · rw [if_pos hsc]; exact hl a (List.mem_cons_self a t)
      · rw [if_neg hsc]; exact hi
    · intro b hb
      exact hl b (List.mem_cons_of_mem a hb)

theorem computePodHealth_band (p : PodHealth.Pod)
    (logs : List (String × List PodHealth.LogEntry))
    (h : ∀ c ∈ p.containers, 0 ≤ c.restartCount) :
    ((PodHealth.computePodHealth p logs).health = "healthy" ∧
      (PodHealth.computePodHealth p logs).attentionScore = 0) ∨
    ((PodHealth.computePodHealth p logs).health = "warning" ∧
      20 ≤ (PodHealth.computePodHealth p logs).attentionScore ∧
      (PodHealth.computePodHealth p logs).attentionScore ≤ 60) ∨
    ((PodHealth.computePodHealth p logs).health = "error" ∧
      100 ≤ (PodHealth.computePodHealth p logs).attentionScore) := by
  have hband : PodHealth.assessmentBand
      ((p.containers.map PodHealth.classifyContainerSeverity).foldl
        (fun mx it => if mx.score < it.score then it else mx) ⟨"healthy", "", none, 0⟩) := by
    apply foldl_band
    · exact Or.inr (Or.inr (Or.inr ⟨rfl, rfl⟩))
    · intro a ha
      obtain ⟨c, hc, rfl⟩ := List.mem_map.mp ha
      exact classify_band c (h c hc)
  simp only [PodHealth.computePodHealth]
  set m := (p.containers.map PodHealth.classifyContainerSeverity).foldl
    (fun mx it => if mx.score < it.score then it else mx) ⟨"healthy", "", none, 0⟩ with hm
  by_cases hs1 : p.status ∈ ["Error", "OOMKilled", "CrashLoopBackOff"]
  · rw [if_pos hs1]
    exact Or.inr (Or.inr ⟨rfl, by norm_num⟩)
  · rw [if_neg hs1]
    by_cases hs2 : m.severity = "error"
    · rw [if_pos hs2]
      refine Or.inr (Or.inr ⟨rfl, ?_⟩)
      rcases hband with ⟨_, hsc⟩ | ⟨hsev, _⟩ | ⟨hsev, _⟩ | ⟨hsev, _⟩
      · exact hsc
      · rw [hsev] at hs2; exact absurd hs2 (by simp)
      · rw [hsev] at hs2; exact absurd hs2 (by simp)
      · rw [hsev] at hs2; exact absurd hs2 (by simp)
    · rw [if_neg hs2]
      by_cases hs3 : (p.containers.any (fun c =>
          ((lookupA logs c.id).getD []).any (fun lg => lg.level == "error"))) = true
      · rw [if_pos hs3]
        exact Or.inr (Or.inl ⟨rfl, by norm_num, by norm_num⟩)
      · rw [if_neg hs3]
        have hle50 : m.score ≤ 50 := by
          rcases hband with ⟨hsev, _⟩ | ⟨_, hsc⟩ | ⟨_, hsc1, hsc2⟩ | ⟨_, hsc⟩
          · exact absurd hsev hs2
          · rw [hsc]; norm_num
          · linarith
          · rw [hsc]; norm_num
        by_cases hs4 : p.status = "Pending" ∨ m.severity = "warning"
        · rw [if_pos hs4]
          refine Or.inr (Or.inl ⟨rfl, ?_, ?_⟩)
          · exact le_trans (by norm_num) (le_max_right m.score 35)
          · exact max_le (by linarith) (by norm_num)
        · rw [if_neg hs4]
          by_cases hs5 : m.severity = "initializing"
          · rw [if_pos hs5]
            have hsc20 : m.score = 20 := by
              rcases hband with ⟨hsev, _⟩ | ⟨_, hsc⟩ | ⟨hsev, _⟩ | ⟨hsev, _⟩
              · exact absurd hsev hs2
              · exact hsc
              · exact absurd (Or.inr hsev) hs4
              · rw [hsev] at hs5; exact absurd hs5 (by simp)
            refine Or.inr (Or.inl ⟨rfl, ?_, ?_⟩)
            · show (20 : ℤ) ≤ m.score
              rw [hsc20]
            · show m.score ≤ (60 : ℤ)
              rw [hsc20]
              norm_num
          · rw [if_neg hs5]
            exact Or.inl ⟨rfl, rfl⟩

/-- C10 (implicit): for pods whose containers all have nonnegative restart
counts, the attention score lies in a band fixed by the health — `healthy`
scores exactly 0, `warning` scores in [20, 60], `error` scores at least 100 —
the three bands are pairwise disjoint and ordered, and ranking by attention
score never contradicts ranking by the health priority table. -/
theorem attention_score_bands (p : PodHealth.Pod)
    (logs : List (String × List PodHealth.LogEntry))
    (h : ∀ c ∈ p.containers, 0 ≤ c.restartCount) :
    ((PodHealth.computePodHealth p logs).health = "healthy" →
      (PodHealth.computePodHealth p logs).attentionScore = 0) ∧
    ((PodHealth.computePodHealth p logs).health = "warning" →
      20 ≤ (PodHealth.computePodHealth p logs).attentionScore ∧
      (PodHealth.computePodHealth p logs).attentionScore ≤ 60) ∧
    ((PodHealth.computePodHealth p logs).health = "error" →
      100 ≤ (PodHealth.computePodHealth p logs).attentionScore) ∧
    (PodHealth.computePodHealth p logs).health ∈ ["healthy", "warning", "error"] ∧
    (∀ (q : PodHealth.Pod) (logsq : List (String × List PodHealth.LogEntry)),
      (∀ c ∈ q.containers, 0 ≤ c.restartCount) →
      PodHealth.healthRank (PodHealth.computePodHealth p logs).health <
        PodHealth.healthRank (PodHealth.computePodHealth q logsq).health →
      (PodHealth.computePodHealth q logsq).attentionScore <
        (PodHealth.computePodHealth p logs).attentionScore) := by
  have hb := computePodHealth_band p logs h
  refine ⟨?_, ?_, ?_, ?_, ?_⟩
  · intro hh
    rcases hb with ⟨_, hs⟩ | ⟨hh2, _⟩ | ⟨hh2, _⟩
    · exact hs
    · rw [hh2] at hh; exact absurd hh (by simp)
    · rw [hh2] at hh; exact absurd hh (by simp)
  · intro hh
    rcases hb with ⟨hh2, _⟩ | ⟨_, hs⟩ | ⟨hh2, _⟩
    · rw [hh2] at hh; exact absurd hh (by simp)
    · exact hs
    · rw [hh2] at hh; exact absurd hh (by simp)
  · intro hh
    rcases hb with ⟨hh2, _⟩ | ⟨hh2, _⟩ | ⟨_, hs⟩
    · rw [hh2] at hh; exact absurd hh (by simp)
    · rw [hh2] at hh; exact absurd hh (by simp)
    · exact hs
  · rcases hb with ⟨hh2, _⟩ | ⟨hh2, _⟩ | ⟨hh2, _⟩ <;> simp [hh2]
  · intro q logsq hq hlt
    have hbq := computePodHealth_band q logsq hq
    rcases hb with ⟨hh1, hs1⟩ | ⟨hh1, hs1⟩ | ⟨hh1, hs1⟩ <;>
      rcases hbq with ⟨hh2, hs2⟩ | ⟨hh2, hs2⟩ | ⟨hh2, hs2⟩ <;>
      rw [hh1, hh2] at hlt <;>
      simp [PodHealth.healthRank] at hlt <;>
      linarith [hs1, hs2]

/-- Witness for C10 at a healthy single-container pod. -/
theorem attention_score_bands_witness :
    (∀ c ∈ (⟨"i", "p", "default", "Running", "n", "ip", "t",
        [⟨"c1", "c", "img", "Running", true, 0, "t", none⟩], [], 0⟩ :
        PodHealth.Pod).containers, 0 ≤ c.restartCount) ∧
    ((PodHealth.computePodHealth
        ⟨"i", "p", "default", "Running", "n", "ip", "t",
          [⟨"c1", "c", "img", "Running", true, 0, "t", none⟩], [], 0⟩ []).health = "healthy" →
      (PodHealth.computePodHealth
        ⟨"i", "p", "default", "Running", "n", "ip", "t",
          [⟨"c1", "c", "img", "Running", true, 0, "t", none⟩], [], 0⟩ []).attentionScore = 0) :=
  ⟨by decide,
    (attention_score_bands
      ⟨"i", "p", "default", "Running", "n", "ip", "t",
        [⟨"c1", "c", "img", "Running", true, 0, "t", none⟩], [], 0⟩ [] (by decide)).1⟩

end PodWatch
